import Mathlib

/-!
Shallow embedding of the cafe nearby-search service:
the geo-cache resolver (`GET /api/checkins`, nearby cafés), the check-in
endpoint (`POST /api/checkins`) and the rate limiter (`enforceRateLimit`,
`getClientIp`).  Timestamps are rationals (seconds); JS numbers are
modelled as rationals; the external store and the upstream provider are
explicit inputs (a key-indexed row map, a table of rows, and the upstream
result list).
-/

namespace CafeSpec

/-- Embeds `clamp(n, min, max) = Math.max(min, Math.min(max, n))`
from `src/app/api/checkins/route.ts`. -/
def clamp {α : Type} [LinearOrder α] (n min max : α) : α :=
  Max.max min (Min.min max n)

/-- JS `Math.round`: the value closest to `x`, ties going to the larger
value (toward +infinity); mathematically `⌊x + 1/2⌋`. -/
def jsRound (x : ℚ) : ℤ := ⌊x + 1/2⌋

/-- Embeds `roundCoord(n, precision) = Math.round(n * 10^precision) / 10^precision`. -/
def roundCoord (n : ℚ) (precision : ℕ) : ℚ :=
  (jsRound (n * 10 ^ precision) : ℚ) / 10 ^ precision

/-- The precision knob: `clamp(Number(process.env.PLACES_QUERY_LATLNG_PRECISION ?? 3), 2, 5)`.
The environment value is modelled as an optional integer (the knob is an
integral count of decimal digits); the clamp to `[2, 5]` makes the result a
natural number exponent. -/
def clampedPrecision (envPrecision : Option ℤ) : ℕ :=
  (clamp (envPrecision.getD 3) 2 5).toNat

/-- The TTL knob: `clamp(Number(process.env.PLACES_CACHE_TTL_SECONDS ?? 900), 60, 86400)`. -/
def clampedTtl (envTtl : Option ℚ) : ℚ :=
  clamp (envTtl.getD 900) 60 86400

/-- Embeds `cacheKey(lat, lng, radiusM, precision)`.  The source renders the
string `nearby:{rLat}:{rLng}:r={radiusM}`; since the string is uniquely
determined by (and determines) the three numbers, the key is modelled as
the triple `(roundCoord lat p, roundCoord lng p, radiusM)`. -/
def cacheKey (lat lng radiusM : ℚ) (precision : ℕ) : ℚ × ℚ × ℚ :=
  (roundCoord lat precision, roundCoord lng precision, radiusM)

/-- Occurrence of `sub` as a contiguous run inside a character list:
the semantics of JS `String.prototype.includes`. -/
def listIncludes (sub : List Char) : List Char → Bool
  | [] => sub.isEmpty
  | c :: rest => sub.isPrefixOf (c :: rest) || listIncludes sub rest

/-- JS `s.includes(sub)`. -/
def jsIncludes (s sub : String) : Bool :=
  listIncludes sub.data s.data

/-- Embeds the `priceLevelInt` ternary chain of the GET handler:
`p.priceLevel?.includes("FREE") ? 0 : ... : null`.  An absent
`priceLevel` makes every optional-chained test undefined (falsy), hence `none`. -/
def priceLevelInt (priceLevel : Option String) : Option ℤ :=
  match priceLevel with
  | none => none
  | some s =>
    if jsIncludes s "FREE" then some 0
    else if jsIncludes s "INEXPENSIVE" then some 1
    else if jsIncludes s "MODERATE" then some 2
    else if jsIncludes s "EXPENSIVE" then some 3
    else if jsIncludes s "VERY_EXPENSIVE" then some 4
    else none

/-- Raw place record of the upstream provider (`GooglePlace`,
`lib/google/places.ts`).  `displayName` models the optional-chained
`displayName?.text`; the declared TS type makes `id` a required string, and
the source's `!p.id` guard treats the empty string like a missing id, so the
empty string stands for "no identifier". -/
structure GooglePlace where
  id : String
  displayName : Option String
  formattedAddress : Option String
  location : Option (ℚ × ℚ)
  rating : Option ℚ
  userRatingCount : Option ℕ
  priceLevel : Option String
  types : Option (List String)
deriving DecidableEq, Repr

/-- A row of the `cafes` table, as selected and upserted by the GET handler. -/
structure CafeRow where
  place_id : String
  name : String
  address : Option String
  lat : ℚ
  lng : ℚ
  google_rating : Option ℚ
  user_ratings_total : Option ℕ
  price_level : Option ℤ
  types : Option (List String)
  last_fetched_at : ℚ
  updated_at : ℚ
deriving DecidableEq, Repr

/-- A row of the `places_cache` table.  A stored `null` identifier array is
falsy in the source's `place_ids?.length` test exactly like `[]`, so it is
collapsed to the empty list. -/
structure CacheRow where
  cache_key : ℚ × ℚ × ℚ
  lat_center : ℚ
  lng_center : ℚ
  radius_m : ℚ
  place_ids : List String
  fetched_at : ℚ
  expires_at : ℚ
deriving DecidableEq, Repr

/-- Embeds the normalization in the GET handler's `cafesToUpsert` map:
`if (!p.id || !loc) return null`, then the field-by-field null-safe copy;
`now` is the request's current time (`new Date()`, seconds). -/
def normalizePlace (now : ℚ) (p : GooglePlace) : Option CafeRow :=
  if p.id = "" then none
  else
    match p.location with
    | none => none
    | some loc =>
      some {
        place_id := p.id
        name := p.displayName.getD "Unknown"
        address := p.formattedAddress
        lat := loc.1
        lng := loc.2
        google_rating := p.rating
        user_ratings_total := p.userRatingCount
        price_level := priceLevelInt p.priceLevel
        types := p.types
        last_fetched_at := now
        updated_at := now }

/-- One step of `upsert(..., { onConflict: "place_id" })`: replace the row
with the same `place_id`, or append. -/
def upsertRow (table : List CafeRow) (r : CafeRow) : List CafeRow :=
  if table.any (fun c => c.place_id = r.place_id)
  then table.map (fun c => if c.place_id = r.place_id then r else c)
  else table ++ [r]

/-- `supabase.from("cafes").upsert(rows, { onConflict: "place_id" })`. -/
def upsertCafes (table rows : List CafeRow) : List CafeRow :=
  rows.foldl upsertRow table

/-- `supabase.from("cafes").select(...).in("place_id", ids)`. -/
def selectByPlaceIds (table : List CafeRow) (ids : List String) : List CafeRow :=
  table.filter (fun c => ids.contains c.place_id)

/-- The observable store / collaborator operations a handler performs, in
order.  `rateLimitCheck` is the `enforceRateLimit` gate (the `rate_limit_hit`
RPC), `upstreamCall` the `searchNearbyPlaces` network call. -/
inductive Event where
  | rateLimitCheck (route : String)
  | cacheRead (key : ℚ × ℚ × ℚ)
  | upstreamCall (lat lng radiusM : ℚ)
  | cafesUpsert (rows : List CafeRow)
  | cacheUpsert (row : CacheRow)
  | cafesReadByIds (ids : List String)
  | cafeSelect (cafeId : String)
  | checkinInsert (cafeId : String)
deriving DecidableEq, Repr

/-- The JSON body of a successful GET response (`source`, `cacheKey`,
`radiusM`, `cafes`). -/
structure GetResponse where
  source : String
  cacheKey : ℚ × ℚ × ℚ
  radiusM : ℚ
  cafes : List CafeRow
deriving DecidableEq, Repr

/-- A successful GET run: the events it performed and the response body. -/
structure GetOutcome where
  events : List Event
  response : GetResponse
deriving DecidableEq, Repr

/-- The cache-miss branch of the GET handler (`// 2) Cache miss → call
Google Places` through the final response): normalize, conditionally upsert
cafes, upsert the cache row (unconditionally), re-read by the written ids,
answer `source: "google"`.  Timestamps are in seconds, so
`new Date(Date.now() + ttlSeconds * 1000)` is `now + ttlSeconds`. -/
def missPath (now : ℚ) (key : ℚ × ℚ × ℚ) (lat lng radiusM : ℚ) (precision : ℕ)
    (ttlSeconds : ℚ) (cafes : List CafeRow) (upstream : List GooglePlace) :
    GetOutcome :=
  let cafesToUpsert := upstream.filterMap (normalizePlace now)
  let cafes2 := if cafesToUpsert = [] then cafes else upsertCafes cafes cafesToUpsert
  let placeIds := cafesToUpsert.map (fun c => c.place_id)
  let newRow : CacheRow := {
    cache_key := key
    lat_center := roundCoord lat precision
    lng_center := roundCoord lng precision
    radius_m := radiusM
    place_ids := placeIds
    fetched_at := now
    expires_at := now + ttlSeconds }
  { events := [.cacheRead key, .upstreamCall lat lng radiusM]
      ++ (if cafesToUpsert = [] then [] else [.cafesUpsert cafesToUpsert])
      ++ [.cacheUpsert newRow, .cafesReadByIds placeIds]
    response := { source := "google", cacheKey := key, radiusM := radiusM,
                  cafes := selectByPlaceIds cafes2 placeIds } }

/-- Embeds `GET /api/checkins` (the nearby-cafés resolver).  `lat?`, `lng?`,
`radius?` are the `toNumber` parses of the query parameters (`none` for a
missing or non-finite value); `places_cache` is the store's `places_cache`
table as a map from cache key to row (`maybeSingle` lookup); `cafes` the
`cafes` table; `upstream` the (successful) `searchNearbyPlaces` result.
The error case is the 400 "Missing/invalid lat or lng" response. -/
def GET (envPrecision : Option ℤ) (envTtl : Option ℚ) (now : ℚ)
    (places_cache : ℚ × ℚ × ℚ → Option CacheRow) (cafes : List CafeRow)
    (upstream : List GooglePlace) (lat? lng? radius? : Option ℚ) :
    Except String GetOutcome :=
  match lat?, lng? with
  | some lat, some lng =>
    let radiusM := clamp (radius?.getD 1500) 200 5000
    let precision := clampedPrecision envPrecision
    let ttlSeconds := clampedTtl envTtl
    let key := cacheKey lat lng radiusM precision
    (match places_cache key with
    | some row =>
      if now < row.expires_at ∧ row.place_ids ≠ [] then
        .ok {
          events := [.cacheRead key, .cafesReadByIds row.place_ids]
          response := { source := "cache", cacheKey := key, radiusM := radiusM,
                        cafes := selectByPlaceIds cafes row.place_ids } }
      else .ok (missPath now key lat lng radiusM precision ttlSeconds cafes upstream)
    | none => .ok (missPath now key lat lng radiusM precision ttlSeconds cafes upstream))
  | _, _ => .error "Missing/invalid lat or lng"

/-- The two request headers `getClientIp` consults (`lib/rateLimit.ts`).
`none` models an absent header. -/
structure ReqHeaders where
  xForwardedFor : Option String
  xRealIp : Option String
deriving DecidableEq, Repr

/-- Embeds `getClientIp`: first non-falsy of `x-forwarded-for` (first
comma-separated part, trimmed), `x-real-ip` (trimmed), else `"0.0.0.0"`.
JS `if (xff)` is false for both `null` and the empty string. -/
def getClientIp (h : ReqHeaders) : String :=
  let xff := h.xForwardedFor.getD ""
  if xff ≠ "" then ((xff.splitOn ",").headD "").trim
  else
    let realIp := h.xRealIp.getD ""
    if realIp ≠ "" then realIp.trim
    else "0.0.0.0"

/-- The row the `rate_limit_hit` RPC returns (`allowed`, `used`, `limit`,
`reset_at`); `reset_at` may be null. -/
structure RateLimitRow where
  allowed : Bool
  used : ℕ
  limit : ℕ
  reset_at : Option ℚ
deriving DecidableEq, Repr

/-- The value `enforceRateLimit` returns to its caller. -/
structure RateLimitResult where
  allowed : Bool
  used : ℕ
  limit : ℕ
  resetAt : ℚ
deriving DecidableEq, Repr

/-- The scope of the counter the limiter addresses in the store: the
`(p_route, p_ip_hash)` pair passed to the `rate_limit_hit` RPC (the window is
derived by the store from these plus `p_window_seconds`). -/
def rateLimitStoreKey (hashFn : String → String) (h : ReqHeaders)
    (route : String) : String × String :=
  (route, hashFn (getClientIp h))

/-- Embeds `enforceRateLimit`.  `hashFn` stands for the injected
`sha256Base64Url` (the crypto library is an external collaborator; only its
determinism matters here); `rpc route ipHash windowSeconds limit` is the
store's atomic `rate_limit_hit` call, returning its single row (or `none`
when it yields no row) or a store error.  `if (error) throw error` is the
`.error` branch. -/
def enforceRateLimit (hashFn : String → String) (now : ℚ)
    (rpc : String → String → ℚ → ℕ → Except String (Option RateLimitRow))
    (h : ReqHeaders) (route : String) (limit : ℕ) (windowSeconds : ℚ) :
    Except String RateLimitResult :=
  let ipHash := hashFn (getClientIp h)
  match rpc route ipHash windowSeconds limit with
  | .error e => .error e
  | .ok row? =>
    .ok {
      allowed := (row?.map (fun r => r.allowed)).getD false
      used := (row?.map (fun r => r.used)).getD 0
      limit := (row?.map (fun r => r.limit)).getD limit
      resetAt := (row?.bind (fun r => r.reset_at)).getD (now + windowSeconds) }

/-- A run of `POST /api/checkins`: its events, in order, and the HTTP
status of the response. -/
structure PostOutcome where
  events : List Event
  status : ℕ
deriving DecidableEq, Repr

/-- Embeds `POST /api/checkins`: rate-limit gate first (limit 10, window
60 s), then body validation, cafe existence check, check-in insert.
`cafeId?` is the parsed `body.cafeId` (with `""` falsy like the source's
`!cafeId` test), `cafeExists` the result of the `cafes` lookup.  A store
error in the gate is the caught 500 path. -/
def POST (hashFn : String → String) (now : ℚ)
    (rpc : String → String → ℚ → ℕ → Except String (Option RateLimitRow))
    (h : ReqHeaders) (cafeId? : Option String) (cafeExists : Bool) :
    PostOutcome :=
  match enforceRateLimit hashFn now rpc h "POST /api/checkins" 10 60 with
  | .error _ => { events := [.rateLimitCheck "POST /api/checkins"], status := 500 }
  | .ok rl =>
    if !rl.allowed then
      { events := [.rateLimitCheck "POST /api/checkins"], status := 429 }
    else
      match cafeId? with
      | none => { events := [.rateLimitCheck "POST /api/checkins"], status := 400 }
      | some cafeId =>
        if cafeId = "" then
          { events := [.rateLimitCheck "POST /api/checkins"], status := 400 }
        else if !cafeExists then
          { events := [.rateLimitCheck "POST /api/checkins", .cafeSelect cafeId],
            status := 404 }
        else
          { events := [.rateLimitCheck "POST /api/checkins", .cafeSelect cafeId,
                       .checkinInsert cafeId],
            status := 200 }

/-- The events of a GET run; a 400 response performs none. -/
def getEvents : Except String GetOutcome → List Event
  | .ok o => o.events
  | .error _ => []

/-- Recognizes the upstream `searchNearbyPlaces` call. -/
def Event.isUpstreamCall : Event → Bool
  | .upstreamCall _ _ _ => true
  | _ => false

/-- Recognizes the rate-limit gate. -/
def Event.isRateLimitCheck : Event → Bool
  | .rateLimitCheck _ => true
  | _ => false

/-- The `places_cache` rows a run writes, in order. -/
def cacheWrites (events : List Event) : List CacheRow :=
  events.filterMap (fun e => match e with | .cacheUpsert r => some r | _ => none)

/-- The radius the GET handler uses: `clamp(radius ?? 1500, 200, 5000)`. -/
def derivedRadius (radius? : Option ℚ) : ℚ :=
  clamp (radius?.getD 1500) 200 5000

/-- The cache key the GET handler derives for a request. -/
def derivedKey (envPrecision : Option ℤ) (lat lng : ℚ) (radius? : Option ℚ) :
    ℚ × ℚ × ℚ :=
  cacheKey lat lng (derivedRadius radius?) (clampedPrecision envPrecision)

/-! Unfolding lemmas for the two branches of the GET handler. -/

theorem GET_hit_eq (envP : Option ℤ) (envT : Option ℚ) (now : ℚ)
    (pc : ℚ × ℚ × ℚ → Option CacheRow) (cafes : List CafeRow)
    (upstream : List GooglePlace) (lat lng : ℚ) (radius? : Option ℚ)
    (row : CacheRow)
    (hrow : pc (derivedKey envP lat lng radius?) = some row)
    (hfresh : now < row.expires_at) (hne : row.place_ids ≠ []) :
    GET envP envT now pc cafes upstream (some lat) (some lng) radius? = .ok {
      events := [.cacheRead (derivedKey envP lat lng radius?),
                 .cafesReadByIds row.place_ids]
      response := { source := "cache", cacheKey := derivedKey envP lat lng radius?,
                    radiusM := derivedRadius radius?,
                    cafes := selectByPlaceIds cafes row.place_ids } } := by
  simp only [derivedKey, derivedRadius, cacheKey] at hrow ⊢
  simp only [GET, cacheKey, hrow, hfresh, hne, ne_eq, not_false_iff, and_self,
    if_true, if_pos]

theorem GET_miss_eq (envP : Option ℤ) (envT : Option ℚ) (now : ℚ)
    (pc : ℚ × ℚ × ℚ → Option CacheRow) (cafes : List CafeRow)
    (upstream : List GooglePlace) (lat lng : ℚ) (radius? : Option ℚ)
    (hmiss : ∀ row, pc (derivedKey envP lat lng radius?) = some row →
      row.expires_at ≤ now ∨ row.place_ids = []) :
    GET envP envT now pc cafes upstream (some lat) (some lng) radius? =
      .ok (missPath now (derivedKey envP lat lng radius?) lat lng
        (derivedRadius radius?) (clampedPrecision envP) (clampedTtl envT)
        cafes upstream) := by
  simp only [derivedKey, derivedRadius, cacheKey] at hmiss ⊢
  simp only [GET, cacheKey]
  cases hpc : pc (roundCoord lat (clampedPrecision envP),
      roundCoord lng (clampedPrecision envP),
      clamp (radius?.getD 1500) 200 5000) with
  | none => rfl
  | some row =>
    dsimp only
    rw [if_neg]
    rintro ⟨hlt, hne⟩
    rcases hmiss row hpc with h | h
    · exact absurd hlt (not_lt.2 h)
    · exact hne h

theorem GET_ok_radiusM (envP : Option ℤ) (envT : Option ℚ) (now : ℚ)
    (pc : ℚ × ℚ × ℚ → Option CacheRow) (cafes : List CafeRow)
    (upstream : List GooglePlace) (lat lng : ℚ) (radius? : Option ℚ) :
    ∃ out, GET envP envT now pc cafes upstream (some lat) (some lng) radius? =
      .ok out ∧ out.response.radiusM = derivedRadius radius? := by
  simp only [GET, derivedRadius, cacheKey]
  cases hpc : pc (roundCoord lat (clampedPrecision envP),
      roundCoord lng (clampedPrecision envP),
      clamp (radius?.getD 1500) 200 5000) with
  | none => exact ⟨_, rfl, rfl⟩
  | some row =>
    dsimp only
    by_cases hc : now < row.expires_at ∧ row.place_ids ≠ []
    · rw [if_pos hc]; exact ⟨_, rfl, rfl⟩
    · rw [if_neg hc]; exact ⟨_, rfl, rfl⟩

theorem clamp_le_right {x : ℚ} : clamp x 200 5000 ≤ 5000 :=
  max_le (by norm_num) (min_le_left _ _)

theorem clamp_ge_left {x : ℚ} : (200 : ℚ) ≤ clamp x 200 5000 :=
  le_max_left _ _

/-- C6: radius clamping to the default bounds [200, 5000] is idempotent
(`clamp (clamp x) = clamp x` for every rational `x`) and saturating
(`clamp 100 = 200`, `clamp 9000 = 5000`, and a request with radius 9000
still gets an ordinary `.ok` response rather than an error); when the
requested radius is absent, the handler uses the default 1500. -/
theorem clamp_radius_idempotent_saturating :
    (∀ x : ℚ, clamp (clamp x 200 5000) 200 5000 = clamp x 200 5000) ∧
    clamp (100 : ℚ) 200 5000 = 200 ∧
    clamp (9000 : ℚ) 200 5000 = 5000 ∧
    (∀ (envP : Option ℤ) (envT : Option ℚ) (now : ℚ)
      (pc : ℚ × ℚ × ℚ → Option CacheRow) (cafes : List CafeRow)
      (upstream : List GooglePlace) (lat lng : ℚ),
      (∃ out, GET envP envT now pc cafes upstream (some lat) (some lng) none =
        .ok out ∧ out.response.radiusM = 1500) ∧
      (∃ out, GET envP envT now pc cafes upstream (some lat) (some lng)
        (some 9000) = .ok out ∧ out.response.radiusM = 5000)) := by
  refine ⟨?_, ?_, ?_, ?_⟩
  · intro x
    conv_lhs => rw [clamp, min_eq_right (clamp_le_right (x := x)),
      max_eq_right (clamp_ge_left (x := x))]
  · norm_num [clamp, min_def, max_def]
  · norm_num [clamp, min_def, max_def]
  · intro envP envT now pc cafes upstream lat lng
    constructor
    · obtain ⟨out, hout, hr⟩ :=
        GET_ok_radiusM envP envT now pc cafes upstream lat lng none
      refine ⟨out, hout, ?_⟩
      rw [hr]
      norm_num [derivedRadius, clamp, min_def, max_def]
    · obtain ⟨out, hout, hr⟩ :=
        GET_ok_radiusM envP envT now pc cafes upstream lat lng (some 9000)
      refine ⟨out, hout, ?_⟩
      rw [hr]
      norm_num [derivedRadius, clamp, min_def, max_def]

/-- C8: whenever the store's atomic increment-and-read (`rate_limit_hit`)
fails, `enforceRateLimit` propagates that very error to its caller
(`if (error) throw error`) and in particular never returns a result at
all, so never one with `allowed = true`. -/
theorem rate_limit_store_failure_propagates (hashFn : String → String)
    (now : ℚ)
    (rpc : String → String → ℚ → ℕ → Except String (Option RateLimitRow))
    (h : ReqHeaders) (route : String) (limit : ℕ) (windowSeconds : ℚ)
    (e : String)
    (herr : rpc route (hashFn (getClientIp h)) windowSeconds limit = .error e) :
    enforceRateLimit hashFn now rpc h route limit windowSeconds = .error e ∧
    ∀ r : RateLimitResult,
      enforceRateLimit hashFn now rpc h route limit windowSeconds ≠ .ok r := by
  have hbody : enforceRateLimit hashFn now rpc h route limit windowSeconds =
      .error e := by
    simp only [enforceRateLimit, herr]
  exact ⟨hbody, fun r hok => by simp [hbody] at hok⟩

/-- Witness for C8 at a concrete failing store. -/
theorem rate_limit_store_failure_propagates_witness :
    enforceRateLimit id 0 (fun _ _ _ _ => .error "store down")
      ⟨none, none⟩ "POST /api/checkins" 10 60 = .error "store down" :=
  (rate_limit_store_failure_propagates id 0 (fun _ _ _ _ => .error "store down")
    ⟨none, none⟩ "POST /api/checkins" 10 60 "store down" rfl).1

/-- C10: a request with neither `x-forwarded-for` nor `x-real-ip` gets the
constant client identity `"0.0.0.0"`; any two such requests therefore share
one fingerprint (the hash of the same string) and address the same
`(route, ip_hash)` counter in the store. -/
theorem headerless_clients_share_fingerprint (hashFn : String → String)
    (h1 h2 : ReqHeaders) (route : String)
    (h1f : h1.xForwardedFor = none) (h1r : h1.xRealIp = none)
    (h2f : h2.xForwardedFor = none) (h2r : h2.xRealIp = none) :
    getClientIp h1 = "0.0.0.0" ∧
    hashFn (getClientIp h1) = hashFn (getClientIp h2) ∧
    rateLimitStoreKey hashFn h1 route = rateLimitStoreKey hashFn h2 route := by
  have g1 : getClientIp h1 = "0.0.0.0" := by simp [getClientIp, h1f, h1r]
  have g2 : getClientIp h2 = "0.0.0.0" := by simp [getClientIp, h2f, h2r]
  exact ⟨g1, by rw [g1, g2], by simp [rateLimitStoreKey, g1, g2]⟩

/-- Witness for C10 at two concrete header-free requests. -/
theorem headerless_clients_share_fingerprint_witness :
    getClientIp ⟨none, none⟩ = "0.0.0.0" ∧
    id (getClientIp ⟨none, none⟩) = id (getClientIp ⟨none, none⟩) ∧
    rateLimitStoreKey id ⟨none, none⟩ "POST /api/checkins" =
      rateLimitStoreKey id ⟨none, none⟩ "POST /api/checkins" :=
  headerless_clients_share_fingerprint id ⟨none, none⟩ ⟨none, none⟩
    "POST /api/checkins" rfl rfl rfl rfl

/-- C1: a stored cache entry that is strictly fresh (`expires_at > now`)
and has a non-empty identifier set makes the resolver answer from the
cache: it returns the cafe rows selected by that identifier set tagged
`source = "cache"`, and the run performs zero upstream calls. -/
theorem fresh_nonempty_cache_hit (envP : Option ℤ) (envT : Option ℚ)
    (now : ℚ) (pc : ℚ × ℚ × ℚ → Option CacheRow) (cafes : List CafeRow)
    (upstream : List GooglePlace) (lat lng : ℚ) (radius? : Option ℚ)
    (row : CacheRow)
    (hrow : pc (derivedKey envP lat lng radius?) = some row)
    (hfresh : now < row.expires_at) (hne : row.place_ids ≠ []) :
    ∃ out, GET envP envT now pc cafes upstream (some lat) (some lng) radius? =
        .ok out ∧
      out.response.source = "cache" ∧
      out.response.cafes = selectByPlaceIds cafes row.place_ids ∧
      out.events.countP Event.isUpstreamCall = 0 := by
  refine ⟨_, GET_hit_eq envP envT now pc cafes upstream lat lng radius? row
    hrow hfresh hne, rfl, rfl, rfl⟩

/-- A concrete fresh, non-empty cache row for the C1 witness. -/
def hitRow : CacheRow :=
  { cache_key := (0, 0, 1500), lat_center := 0, lng_center := 0,
    radius_m := 1500, place_ids := ["p1"], fetched_at := 0, expires_at := 10 }

/-- Witness for C1 at a concrete fresh cache entry. -/
theorem fresh_nonempty_cache_hit_witness :
    ∃ out, GET none none 0 (fun _ => some hitRow) [] [] (some 0) (some 0)
        none = .ok out ∧
      out.response.source = "cache" ∧
      out.response.cafes = selectByPlaceIds [] hitRow.place_ids ∧
      out.events.countP Event.isUpstreamCall = 0 :=
  fresh_nonempty_cache_hit none none 0 (fun _ => some hitRow) [] [] 0 0 none
    hitRow rfl (by norm_num [hitRow]) (by simp [hitRow])

/-! Substring facts needed to show the `VERY_EXPENSIVE` branch of the
price-tier chain is unreachable. -/

theorem listIncludes_of_isPrefixOf {sub l : List Char}
    (h : sub.isPrefixOf l) : listIncludes sub l := by
  cases l with
  | nil =>
    cases sub with
    | nil => rfl
    | cons a as => simp at h
  | cons c rest => simp [listIncludes, h]

theorem listIncludes_of_append_isPrefixOf :
    ∀ (a : List Char) {b l : List Char},
      (a ++ b).isPrefixOf l → listIncludes b l
  | [], _, _, h => listIncludes_of_isPrefixOf (by simpa using h)
  | x :: a', b, l, h => by
    cases l with
    | nil => simp at h
    | cons c rest =>
      rw [List.cons_append, List.isPrefixOf_cons₂] at h
      have h2 := listIncludes_of_append_isPrefixOf a'
        (Bool.and_elim_right h)
      simp [listIncludes, h2]

theorem listIncludes_append_right {a b : List Char} :
    ∀ {l : List Char}, listIncludes (a ++ b) l → listIncludes b l := by
  intro l
  induction l with
  | nil =>
    intro h
    simp only [listIncludes, List.isEmpty_iff, List.append_eq_nil] at h
    simp [listIncludes, List.isEmpty_iff, h.2]
  | cons c rest ih =>
    intro h
    simp only [listIncludes, Bool.or_eq_true] at h ⊢
    rcases h with h | h
    · have h2 := listIncludes_of_append_isPrefixOf a h
      simpa [listIncludes] using h2
    · exact Or.inr (ih h)

theorem jsIncludes_very_expensive_implies_expensive {s : String}
    (h : jsIncludes s "VERY_EXPENSIVE") : jsIncludes s "EXPENSIVE" := by
  have key : "VERY_EXPENSIVE".data = "VERY_".data ++ "EXPENSIVE".data := by
    decide
  rw [jsIncludes, key] at h
  exact listIncludes_append_right h

/-- C3 (code bug): the price-tier chain maps the first four recognized
tier strings to 0..3 and unrecognized or absent tiers to `none`, but it maps
the very_expensive tier string to 3, not 4: the `includes("EXPENSIVE")` test
fires first on any string containing `VERY_EXPENSIVE`, so the `4` branch is
unreachable for every input. -/
theorem priceLevelInt_mapping :
    priceLevelInt (some "PRICE_LEVEL_FREE") = some 0 ∧
    priceLevelInt (some "PRICE_LEVEL_INEXPENSIVE") = some 1 ∧
    priceLevelInt (some "PRICE_LEVEL_MODERATE") = some 2 ∧
    priceLevelInt (some "PRICE_LEVEL_EXPENSIVE") = some 3 ∧
    priceLevelInt (some "PRICE_LEVEL_VERY_EXPENSIVE") = some 3 ∧
    priceLevelInt none = none ∧
    priceLevelInt (some "PRICE_LEVEL_UNSPECIFIED") = none ∧
    ∀ s : Option String, priceLevelInt s ≠ some 4 := by
  refine ⟨by decide, by decide, by decide, by decide, by decide, rfl,
    by decide, ?_⟩
  intro s
  cases s with
  | none => simp [priceLevelInt]
  | some s =>
    simp only [priceLevelInt]
    split_ifs with h1 h2 h3 h4 h5 <;> simp_all
    have hc := jsIncludes_very_expensive_implies_expensive h5
    simp [h4] at hc

/-- Round-half-away-from-zero at a rational, as the spec words the
handler's rounding (stated for comparison with the source's `Math.round`). -/
def roundHalfAwayFromZero (x : ℚ) : ℤ :=
  if 0 ≤ x then ⌊x + 1/2⌋ else -⌊-x + 1/2⌋

/-- Coordinate rounding as the spec words it: round-half-away-from-zero at
the p-th decimal digit. -/
def roundCoordSpec (n : ℚ) (precision : ℕ) : ℚ :=
  (roundHalfAwayFromZero (n * 10 ^ precision) : ℚ) / 10 ^ precision

/-- C4 counterexample: at coordinate -0.0005 and precision 3 the handler
rounds to 0 (`Math.round` sends the tie -0.5 up, toward zero here), while
round-half-away-from-zero would give -0.001. -/
theorem roundCoord_not_half_away_from_zero :
    roundCoord (-1/2000) 3 = 0 ∧
    roundCoordSpec (-1/2000) 3 = -(1/1000) ∧
    roundCoord (-1/2000) 3 ≠ roundCoordSpec (-1/2000) 3 := by
  norm_num [roundCoord, roundCoordSpec, roundHalfAwayFromZero, jsRound]

/-- C4 (amended): `roundCoord` rounds at the p-th decimal digit with ties
toward +∞ (JS `Math.round`): the result is an integer multiple of `10^-p`
and the rounding error `n - roundCoord n p` lies in `[-h, h)` for
`h = 1/(2·10^p)` — so a negative coordinate sitting exactly on a half moves
toward zero, not away.  The precision the handler uses is the environment
knob clamped to `[2, 5]`, defaulting to 3. -/
theorem roundCoord_half_toward_pos_inf (n : ℚ) (p : ℕ) :
    (∃ k : ℤ, roundCoord n p = (k : ℚ) / 10 ^ p) ∧
    -(1 / (2 * 10 ^ p)) ≤ n - roundCoord n p ∧
    n - roundCoord n p < 1 / (2 * 10 ^ p) ∧
    (∀ e : Option ℤ, 2 ≤ clampedPrecision e ∧ clampedPrecision e ≤ 5) ∧
    clampedPrecision none = 3 := by
  have h10 : (0 : ℚ) < 10 ^ p := by positivity
  have hle : ((jsRound (n * 10 ^ p) : ℤ) : ℚ) ≤ n * 10 ^ p + 1/2 :=
    Int.floor_le _
  have hlt : n * 10 ^ p + 1/2 < (jsRound (n * 10 ^ p) : ℤ) + 1 :=
    Int.lt_floor_add_one _
  have hn : n - roundCoord n p =
      (n * 10 ^ p - (jsRound (n * 10 ^ p) : ℚ)) / 10 ^ p := by
    rw [roundCoord]
    field_simp
  refine ⟨⟨jsRound (n * 10 ^ p), rfl⟩, ?_, ?_, ?_, by decide⟩
  · rw [hn, show -(1 / (2 * 10 ^ p)) = (-(1/2) : ℚ) / 10 ^ p by
      rw [neg_div, div_div]]
    rw [div_le_div_iff_of_pos_right h10]
    linarith
  · rw [hn, show (1 / (2 * 10 ^ p) : ℚ) = (1/2 : ℚ) / 10 ^ p by
      rw [div_div]]
    rw [div_lt_div_iff_of_pos_right h10]
    linarith
  · intro e
    have hz2 : (2 : ℤ) ≤ clamp (e.getD 3) 2 5 := le_max_left _ _
    have hz5 : clamp (e.getD 3) 2 5 ≤ 5 :=
      max_le (by norm_num) (min_le_left _ _)
    unfold clampedPrecision
    omega

/-! Projections of the miss path, shared by the claims about it. -/

/-- The cache row the miss path writes. -/
def missRow (now : ℚ) (key : ℚ × ℚ × ℚ) (lat lng radiusM : ℚ)
    (precision : ℕ) (ttlSeconds : ℚ) (upstream : List GooglePlace) :
    CacheRow :=
  { cache_key := key, lat_center := roundCoord lat precision,
    lng_center := roundCoord lng precision, radius_m := radiusM,
    place_ids := (upstream.filterMap (normalizePlace now)).map
      (fun c => c.place_id),
    fetched_at := now, expires_at := now + ttlSeconds }

theorem missPath_cacheWrites (now : ℚ) (key : ℚ × ℚ × ℚ)
    (lat lng radiusM : ℚ) (precision : ℕ) (ttlSeconds : ℚ)
    (cafes : List CafeRow) (upstream : List GooglePlace) :
    cacheWrites (missPath now key lat lng radiusM precision ttlSeconds cafes
      upstream).events =
      [missRow now key lat lng radiusM precision ttlSeconds upstream] := by
  by_cases hrows : upstream.filterMap (normalizePlace now) = [] <;>
    simp [missPath, cacheWrites, missRow, hrows]

theorem missPath_upstream_count (now : ℚ) (key : ℚ × ℚ × ℚ)
    (lat lng radiusM : ℚ) (precision : ℕ) (ttlSeconds : ℚ)
    (cafes : List CafeRow) (upstream : List GooglePlace) :
    (missPath now key lat lng radiusM precision ttlSeconds cafes
      upstream).events.countP Event.isUpstreamCall = 1 := by
  by_cases hrows : upstream.filterMap (normalizePlace now) = [] <;>
    simp [missPath, hrows, Event.isUpstreamCall]

theorem missPath_rateLimit_count (now : ℚ) (key : ℚ × ℚ × ℚ)
    (lat lng radiusM : ℚ) (precision : ℕ) (ttlSeconds : ℚ)
    (cafes : List CafeRow) (upstream : List GooglePlace) :
    (missPath now key lat lng radiusM precision ttlSeconds cafes
      upstream).events.countP Event.isRateLimitCheck = 0 := by
  by_cases hrows : upstream.filterMap (normalizePlace now) = [] <;>
    simp [missPath, hrows, Event.isRateLimitCheck]

theorem missPath_readback_mem (now : ℚ) (key : ℚ × ℚ × ℚ)
    (lat lng radiusM : ℚ) (precision : ℕ) (ttlSeconds : ℚ)
    (cafes : List CafeRow) (upstream : List GooglePlace) :
    Event.cafesReadByIds ((upstream.filterMap (normalizePlace now)).map
        (fun c => c.place_id)) ∈
      (missPath now key lat lng radiusM precision ttlSeconds cafes
        upstream).events := by
  by_cases hrows : upstream.filterMap (normalizePlace now) = [] <;>
    simp [missPath, hrows]

theorem missPath_response_cafes (now : ℚ) (key : ℚ × ℚ × ℚ)
    (lat lng radiusM : ℚ) (precision : ℕ) (ttlSeconds : ℚ)
    (cafes : List CafeRow) (upstream : List GooglePlace) :
    (missPath now key lat lng radiusM precision ttlSeconds cafes
      upstream).response.cafes =
      selectByPlaceIds
        (if upstream.filterMap (normalizePlace now) = [] then cafes
         else upsertCafes cafes (upstream.filterMap (normalizePlace now)))
        ((upstream.filterMap (normalizePlace now)).map (fun c => c.place_id)) :=
  rfl

theorem clampedTtl_pos (envT : Option ℚ) : (60 : ℚ) ≤ clampedTtl envT :=
  le_max_left _ _

/-- C2 (amended): whenever the stored entry is absent, expired, or has an
empty identifier set, the resolver calls the upstream provider (exactly
once) and overwrites the `places_cache` entry under the same derived key
with expiry `now + TTL`; when the old entry was expired, that new expiry is
strictly later than the old one (the TTL is at least 60 s).  For a
fresh-but-empty old entry the new expiry need not exceed the old (see the
counterexample), which is the sole amendment. -/
theorem miss_refreshes_and_overwrites (envP : Option ℤ) (envT : Option ℚ)
    (now : ℚ) (pc : ℚ × ℚ × ℚ → Option CacheRow) (cafes : List CafeRow)
    (upstream : List GooglePlace) (lat lng : ℚ) (radius? : Option ℚ)
    (hmiss : ∀ row, pc (derivedKey envP lat lng radius?) = some row →
      row.expires_at ≤ now ∨ row.place_ids = []) :
    ∃ out, GET envP envT now pc cafes upstream (some lat) (some lng) radius? =
        .ok out ∧
      out.events.countP Event.isUpstreamCall = 1 ∧
      (∃ r, cacheWrites out.events = [r] ∧
        r.cache_key = derivedKey envP lat lng radius? ∧
        r.expires_at = now + clampedTtl envT) ∧
      (∀ row, pc (derivedKey envP lat lng radius?) = some row →
        row.expires_at ≤ now →
        ∀ r, cacheWrites out.events = [r] → row.expires_at < r.expires_at) := by
  refine ⟨_, GET_miss_eq envP envT now pc cafes upstream lat lng radius? hmiss,
    missPath_upstream_count _ _ _ _ _ _ _ _ _, ⟨_,
    missPath_cacheWrites _ _ _ _ _ _ _ _ _, rfl, rfl⟩, ?_⟩
  intro row _ hexp r hr
  rw [missPath_cacheWrites] at hr
  have : r = missRow now (derivedKey envP lat lng radius?) lat lng
      (derivedRadius radius?) (clampedPrecision envP) (clampedTtl envT)
      upstream := by simpa using hr.symm
  subst this
  have h60 := clampedTtl_pos envT
  calc row.expires_at ≤ now := hexp
    _ < now + clampedTtl envT := by linarith
    _ = (missRow now (derivedKey envP lat lng radius?) lat lng
      (derivedRadius radius?) (clampedPrecision envP) (clampedTtl envT)
      upstream).expires_at := rfl

/-- Witness for C2 at a concrete absent entry. -/
theorem miss_refreshes_and_overwrites_witness :
    ∃ out, GET none none 0 (fun _ => none) [] [] (some 0) (some 0) none =
        .ok out ∧
      out.events.countP Event.isUpstreamCall = 1 ∧
      (∃ r, cacheWrites out.events = [r] ∧
        r.cache_key = derivedKey none 0 0 none ∧
        r.expires_at = 0 + clampedTtl none) ∧
      (∀ row, (none : Option CacheRow) = some row → row.expires_at ≤ 0 →
        ∀ r, cacheWrites out.events = [r] → row.expires_at < r.expires_at) :=
  miss_refreshes_and_overwrites none none 0 (fun _ => none) [] [] 0 0 none
    (fun _ h => Option.noConfusion h)

/-- The fresh-but-empty stored entry of the C2 counterexample: written
earlier (for instance under a larger configured TTL), it expires only at
t = 10000, yet its identifier set is empty. -/
def emptyFreshRow : CacheRow :=
  { cache_key := (0, 0, 1500), lat_center := 0, lng_center := 0,
    radius_m := 1500, place_ids := [], fetched_at := 0, expires_at := 10000 }

/-- C2 counterexample: with the fresh-but-empty entry `emptyFreshRow`
present at time 0 and the default TTL 900, the refresh overwrites the entry
with expiry 0 + 900 = 900, which is NOT strictly later than the old expiry
10000 — refuting the claim's unconditional "strictly later". -/
theorem refresh_expiry_not_always_later :
    ∃ out, GET none none 0 (fun _ => some emptyFreshRow) [] [] (some 0)
        (some 0) none = .ok out ∧
      ∃ r, cacheWrites out.events = [r] ∧ r.expires_at = 900 ∧
        ¬ emptyFreshRow.expires_at < r.expires_at := by
  refine ⟨_, GET_miss_eq none none 0 _ [] [] 0 0 none ?_,
    ⟨_, missPath_cacheWrites _ _ _ _ _ _ _ _ _, ?_, ?_⟩⟩
  · intro row h
    right
    obtain rfl : emptyFreshRow = row := by injection h
    rfl
  · show (0 : ℚ) + clampedTtl none = 900
    norm_num [clampedTtl, clamp, min_def, max_def]
  · show ¬ (10000 : ℚ) < 0 + clampedTtl none
    norm_num [clampedTtl, clamp, min_def, max_def]

/-- C5 (amended): on the cache-miss path, after persisting the normalized
places and the cache entry, the resolver re-reads the cafes table by
exactly the identifier set just written into the cache row and returns
those rows; the source tag of that response is the literal string
`"google"` (the handler's name for the upstream path), not `"upstream"`. -/
theorem miss_readback_source_google (envP : Option ℤ) (envT : Option ℚ)
    (now : ℚ) (pc : ℚ × ℚ × ℚ → Option CacheRow) (cafes : List CafeRow)
    (upstream : List GooglePlace) (lat lng : ℚ) (radius? : Option ℚ)
    (hmiss : ∀ row, pc (derivedKey envP lat lng radius?) = some row →
      row.expires_at ≤ now ∨ row.place_ids = []) :
    ∃ out, GET envP envT now pc cafes upstream (some lat) (some lng) radius? =
        .ok out ∧
      out.response.source = "google" ∧
      ∃ r, cacheWrites out.events = [r] ∧
        Event.cafesReadByIds r.place_ids ∈ out.events ∧
        out.response.cafes = selectByPlaceIds
          (if upstream.filterMap (normalizePlace now) = [] then cafes
           else upsertCafes cafes (upstream.filterMap (normalizePlace now)))
          r.place_ids := by
  refine ⟨_, GET_miss_eq envP envT now pc cafes upstream lat lng radius? hmiss,
    rfl, ⟨_, missPath_cacheWrites _ _ _ _ _ _ _ _ _, ?_, ?_⟩⟩
  · exact missPath_readback_mem _ _ _ _ _ _ _ _ _
  · exact missPath_response_cafes _ _ _ _ _ _ _ _ _

/-- A concrete upstream place used by witnesses and counterexamples. -/
def g1 : GooglePlace :=
  { id := "p1", displayName := some "Cafe One", formattedAddress := none,
    location := some (1, 2), rating := none, userRatingCount := none,
    priceLevel := none, types := none }

/-- C5 counterexample: a concrete miss-path run (one upstream place,
persisted and re-read) answers with source `"google"`, not `"upstream"`. -/
theorem miss_source_not_upstream :
    ∃ out, GET none none 0 (fun _ => none) [] [g1] (some 0) (some 0) none =
        .ok out ∧
      out.response.source = "google" ∧ out.response.source ≠ "upstream" := by
  refine ⟨_, GET_miss_eq none none 0 _ [] [g1] 0 0 none
    (fun _ h => Option.noConfusion h), rfl, ?_⟩
  intro h
  simp [missPath] at h

/-- Witness for C5 at a concrete cache miss with one upstream place. -/
theorem miss_readback_source_google_witness :
    ∃ out, GET none none 0 (fun _ => none) [] [g1] (some 0) (some 0) none =
        .ok out ∧
      out.response.source = "google" ∧
      ∃ r, cacheWrites out.events = [r] ∧
        Event.cafesReadByIds r.place_ids ∈ out.events ∧
        out.response.cafes = selectByPlaceIds
          (if [g1].filterMap (normalizePlace 0) = [] then []
           else upsertCafes [] ([g1].filterMap (normalizePlace 0)))
          r.place_ids :=
  miss_readback_source_google none none 0 (fun _ => none) [] [g1] 0 0 none
    (fun _ h => Option.noConfusion h)

/-- C7 (amended): the nearby-cafés resolver (GET) performs NO rate-limit
decision at all — its cache lookup, upstream fetch and writes run ungated —
while the check-in endpoint (POST) always runs the rate-limit gate first,
before any other store operation. -/
theorem gate_only_on_post :
    (∀ (envP : Option ℤ) (envT : Option ℚ) (now : ℚ)
      (pc : ℚ × ℚ × ℚ → Option CacheRow) (cafes : List CafeRow)
      (upstream : List GooglePlace) (lat? lng? radius? : Option ℚ),
      (getEvents (GET envP envT now pc cafes upstream lat? lng?
        radius?)).countP Event.isRateLimitCheck = 0) ∧
    (∀ (hashFn : String → String) (now : ℚ)
      (rpc : String → String → ℚ → ℕ → Except String (Option RateLimitRow))
      (h : ReqHeaders) (cafeId? : Option String) (cafeExists : Bool),
      (POST hashFn now rpc h cafeId? cafeExists).events.take 1 =
        [Event.rateLimitCheck "POST /api/checkins"]) := by
  constructor
  · intro envP envT now pc cafes upstream lat? lng? radius?
    cases lat? with
    | none => rfl
    | some lat =>
      cases lng? with
      | none => rfl
      | some lng =>
        simp only [GET]
        cases hpc : pc (cacheKey lat lng (clamp (radius?.getD 1500) 200 5000)
            (clampedPrecision envP)) with
        | none =>
          dsimp only [getEvents]
          exact missPath_rateLimit_count _ _ _ _ _ _ _ _ _
        | some row =>
          dsimp only
          by_cases hc : now < row.expires_at ∧ row.place_ids ≠ []
          · rw [if_pos hc]; rfl
          · rw [if_neg hc]
            exact missPath_rateLimit_count _ _ _ _ _ _ _ _ _
  · intro hashFn now rpc h cafeId? cafeExists
    simp only [POST]
    cases henf : enforceRateLimit hashFn now rpc h "POST /api/checkins" 10 60
      with
    | error e => rfl
    | ok rl =>
      dsimp only
      cases hra : rl.allowed with
      | false => rfl
      | true =>
        simp only [hra, Bool.not_true, Bool.false_eq_true, if_false]
        cases cafeId? with
        | none => rfl
        | some cid =>
          by_cases hcid : cid = "" <;> cases cafeExists <;>
            simp [hcid]

/-- C7 counterexample: a concrete GET run whose cache lookup (and whole
miss path) executes with zero preceding — indeed zero — rate-limit
decisions. -/
theorem resolver_runs_ungated :
    ∃ out, GET none none 0 (fun _ => none) [] [] (some 0) (some 0) none =
        .ok out ∧
      Event.cacheRead (derivedKey none 0 0 none) ∈ out.events ∧
      out.events.countP Event.isRateLimitCheck = 0 := by
  refine ⟨_, GET_miss_eq none none 0 _ [] [] 0 0 none
    (fun _ h => Option.noConfusion h), ?_,
    missPath_rateLimit_count _ _ _ _ _ _ _ _ _⟩
  simp [missPath]

/-- C9 (amended): when the upstream result yields no usable records, the
resolver still writes a cache entry for the derived key — with an empty
identifier set — but such an entry is never served: a lookup finding a
present entry with an empty identifier set takes the refresh path (calls
upstream) instead of answering from cache. -/
theorem empty_bucket_written_never_served (envP : Option ℤ) (envT : Option ℚ)
    (now : ℚ) (pc : ℚ × ℚ × ℚ → Option CacheRow) (cafes : List CafeRow)
    (upstream : List GooglePlace) (lat lng : ℚ) (radius? : Option ℚ)
    (row : CacheRow)
    (hrow : pc (derivedKey envP lat lng radius?) = some row)
    (hempty : row.place_ids = [])
    (hrows : upstream.filterMap (normalizePlace now) = []) :
    ∃ out, GET envP envT now pc cafes upstream (some lat) (some lng) radius? =
        .ok out ∧
      out.events.countP Event.isUpstreamCall = 1 ∧
      ∃ r, cacheWrites out.events = [r] ∧
        r.cache_key = derivedKey envP lat lng radius? ∧ r.place_ids = [] := by
  refine ⟨_, GET_miss_eq envP envT now pc cafes upstream lat lng radius?
      (fun row' h => ?_),
    missPath_upstream_count _ _ _ _ _ _ _ _ _,
    ⟨_, missPath_cacheWrites _ _ _ _ _ _ _ _ _, rfl, ?_⟩⟩
  · rw [hrow] at h
    injection h with h
    subst h
    exact Or.inr hempty
  · simp [missRow, hrows]

/-- Witness for C9 at a concrete empty entry and empty upstream result. -/
theorem empty_bucket_written_never_served_witness :
    ∃ out, GET none none 0 (fun _ => some emptyFreshRow) [] [] (some 0)
        (some 0) none = .ok out ∧
      out.events.countP Event.isUpstreamCall = 1 ∧
      ∃ r, cacheWrites out.events = [r] ∧
        r.cache_key = derivedKey none 0 0 none ∧ r.place_ids = [] :=
  empty_bucket_written_never_served none none 0 (fun _ => some emptyFreshRow)
    [] [] 0 0 none emptyFreshRow rfl rfl rfl

/-- C9 counterexample: a concrete run in which the upstream result is empty
and a cache entry recording the empty bucket IS written for the derived
key — refuting "no cache entry recording an empty bucket is written". -/
theorem empty_bucket_write_happens :
    ∃ out, GET none none 0 (fun _ => none) [] [] (some 0) (some 0) none =
        .ok out ∧
      ∃ r, cacheWrites out.events = [r] ∧
        r.cache_key = derivedKey none 0 0 none ∧ r.place_ids = [] := by
  refine ⟨_, GET_miss_eq none none 0 _ [] [] 0 0 none
    (fun _ h => Option.noConfusion h),
    ⟨_, missPath_cacheWrites _ _ _ _ _ _ _ _ _, rfl, rfl⟩⟩

end CafeSpec
